import Mathlib

/-!
Verification development for the CRISPResso2 shared helpers
(`CRISPResso/CRISPRessoShared.py`, version 2.0.09b).

The Python source is shallowly embedded below.  Conventions used throughout:

* Python strings are Lean `String`s; all sequence functions work on `.data`
  (the underlying `List Char`) so that everything reduces in the kernel.
* Python `int` is `Int`.  Python 2 integer division `/` (floor division —
  this file supports Python 2.7, and both division operands here are
  positive wherever a division occurs) is `Int.fdiv`.
* Python floats used only for frequency/score comparisons are modelled as
  `ℚ`.  The external Needleman-Wunsch aligner (`cnwalign.global_align`) is a
  collaborator outside this repository, so its normalized score is an oracle
  parameter `score : String → String → ℚ`.
* Fallible code returns `Except`/`Option`; a raised Python exception is an
  `error` value.
* The one float division in scope, `float(count)/float(N)` with integer
  operands, is modelled as the rational `mkRat count N`, which reduces
  inside the kernel.  (For `N = 0` Python would raise `ZeroDivisionError`
  while `mkRat count 0 = 0`; no claim concerns that degenerate call.)
-/

deriving instance DecidableEq for Except

/-! ### SequenceOps (lines 136-141)

`nt_complement` is a Python dict, so looking up a character outside the
alphabet raises `KeyError`: the lookup is `Option`-valued and
`reverse_complement` is `Option`-valued.  Both `reverse_complement` and
`reverse` first apply `.upper()` (ASCII uppercasing, which is all the
sequence alphabet needs) and then reverse with `[-1::-1]`. -/

def nt_complement (c : Char) : Option Char :=
  if c = 'A' then some 'T'
  else if c = 'C' then some 'G'
  else if c = 'G' then some 'C'
  else if c = 'T' then some 'A'
  else if c = 'N' then some 'N'
  else if c = '_' then some '_'
  else if c = '-' then some '-'
  else none

/-- Python `str.upper()` on the characters that occur in sequence data
(ASCII; Lean `Char.toUpper` is exactly ASCII uppercasing). -/
def pyUpper (s : String) : String := String.mk (s.data.map Char.toUpper)

/-- The list comprehension `[nt_complement[c] for c in l]`: the first
character missing from the dict raises `KeyError` (here: `none`). -/
def dictMap (f : Char → Option Char) : List Char → Option (List Char)
  | [] => some []
  | c :: cs =>
    match f c, dictMap f cs with
    | some d, some ds => some (d :: ds)
    | _, _ => none

/-- Line 137: `"".join([nt_complement[c] for c in seq.upper()[-1::-1]])`. -/
def reverse_complement (seq : String) : Option String :=
  (dictMap nt_complement (pyUpper seq).data.reverse).map (fun l => String.mk l)

/-- Line 140: `"".join(c for c in seq.upper()[-1::-1])`. -/
def reverse (seq : String) : String := String.mk (pyUpper seq).data.reverse

/-! ### `re.finditer` for a literal pattern

The guides/references contain no regex metacharacters, so `re.finditer`
scans left to right for non-overlapping literal occurrences: after a match
at `i` the scan resumes at `i + len(pat)` (at `i + 1` for an empty pattern,
which `re` treats as matching at every position including the end).  The
fuel `s.length + 1` is exact: every step advances the position by at least
one and the scan stops once the position passes `s.length`. -/

def reFinditerAux (pat s : List Char) : Nat → Nat → List Nat
  | 0, _ => []
  | fuel + 1, i =>
    if i ≤ s.length then
      if (s.drop i).take pat.length = pat then
        i :: reFinditerAux pat s fuel (i + max 1 pat.length)
      else
        reFinditerAux pat s fuel (i + 1)
    else []

def reFinditer (pat s : String) : List Nat :=
  reFinditerAux pat.data s.data (s.data.length + 1) 0

/-! ### get_amplicon_info_for_guides (lines 393-498) -/

/-- Line 427: `offset_fw = quantification_window_center+len(current_guide_seq)-1`. -/
def offset_fw (wc : Int) (g : String) : Int := wc + (g.length : Int) - 1

/-- Line 428: `offset_rc = (-quantification_window_center)-1`. -/
def offset_rc (wc : Int) : Int := (-wc) - 1

/-- The exceptions `get_amplicon_info_for_guides` can raise.
`nameError` models the `NameError` raised at line 447, where the code reads
the name `idx`, which is bound nowhere in the function or module. -/
inductive GuideErr where
  | keyError : GuideErr
  | nameError : GuideErr
  | badParameter : String → GuideErr
deriving DecidableEq, Repr

structure ScanResult where
  sequences : List String
  intervals : List (Int × Int)
  cut_points : List Int
  plot_offsets : List Nat
deriving DecidableEq, Repr

/-- One iteration of the guide loop, lines 426-443.  All three orientations
are searched; a guide with no occurrence contributes nothing.  The
`plot_offsets` entry is 1 iff `current_guide_seq in ref_seq`, i.e. iff there
is a forward occurrence. -/
def guideStep (wc : Int) (ref : String) (st : ScanResult) (g : String) :
    Except GuideErr ScanResult :=
  match reverse_complement g with
  | none => .error .keyError
  | some rcg =>
    let fw := reFinditer g ref
    let rc := reFinditer rcg ref
    let rv := reFinditer (reverse g) ref
    let new_cut_points : List Int :=
      fw.map (fun (m : Nat) => (m : Int) + offset_fw wc g)
        ++ rc.map (fun (m : Nat) => (m : Int) + offset_rc wc)
        ++ rv.map (fun (m : Nat) => (m : Int) + offset_rc wc)
    if new_cut_points = [] then .ok st
    else
      .ok { sequences := st.sequences ++ [g],
            intervals := st.intervals
              ++ (fw ++ rc ++ rv).map (fun (m : Nat) => ((m : Int), (m : Int) + (g.length : Int) - 1)),
            cut_points := st.cut_points ++ new_cut_points,
            plot_offsets := st.plot_offsets ++ [if fw = [] then 0 else 1] }

def guideScan (wc : Int) (ref : String) (guides : List String) :
    Except GuideErr ScanResult :=
  guides.foldlM (guideStep wc ref) ⟨[], [], [], []⟩

/-- `range(a, b)` over `Int` endpoints (Python 2 `range` of ints). -/
def intRange (a b : Int) : List Int :=
  (List.range (b - a).toNat).map (fun (i : Nat) => a + (i : Int))

/-- Lines 459-466, for the path where no explicit coordinates are given:
`elif this_cut_points and quantification_window_size>0` builds a window
around every cut point, clamped with `max`/`min`; otherwise the whole
reference is included.  `this_include_idxs` starts out empty (line 422). -/
def window_include (L : Int) (cuts : List Int) (qws : Int) : List Int :=
  if cuts ≠ [] ∧ qws > 0 then
    cuts.foldl
      (fun acc c =>
        acc ++ intRange (max 0 (c - max 1 (Int.fdiv qws 2) + 1))
                        (min (L - 1) (c + max 1 (Int.fdiv qws 2) + 1)))
      []
  else intRange 0 L

/-- Python list slice `l[s:]` with an `int` (possibly negative) start. -/
def pySliceFrom (l : List Int) (s : Int) : List Int :=
  if 0 ≤ s then l.drop s.toNat else l.drop ((l.length : Int) + s).toNat

/-- Lines 469-473: `range(exclude_bp_from_left)` (a truthiness test guards
each block, so a value of `0` contributes nothing) followed by
`range(ref_seq_length)[-exclude_bp_from_right:]`. -/
def exclude_idxs_of (L : Int) (el er : Int) : List Int :=
  (if el ≠ 0 then intRange 0 el else [])
    ++ (if er ≠ 0 then pySliceFrom (intRange 0 L) (-er) else [])

/-- Insertion sort, used to model the sorted unique output of
`np.setdiff1d`. -/
def insertSorted (x : Int) : List Int → List Int
  | [] => [x]
  | y :: ys => if x ≤ y then x :: y :: ys else y :: insertSorted x ys

def sortInts (l : List Int) : List Int := l.foldr insertSorted []

/-- Line 479: `set(np.setdiff1d(a, b))` — the elements of `a` not in `b`.
`np.setdiff1d` returns the sorted unique values, which is also how we
canonically represent the resulting Python set. -/
def setdiff1d (a b : List Int) : List Int :=
  sortInts ((a.filter (fun x => decide (x ∉ b))).dedup)

def quant_include (L : Int) (cuts : List Int) (qws el er : Int) : List Int :=
  setdiff1d (window_include L cuts qws) (exclude_idxs_of L el er)

/-- Lines 485-492: the loop over cut points in the plot branch.  Note the
second bound check at line 488 is `cut_p - window_around_cut > ref_seq_length-1`
(a minus, not a plus), and line 491 then clamps `en` with `min`. -/
def plotLoop (L w : Int) : List Int → List Int → Except GuideErr (List Int)
  | [], acc => .ok acc
  | c :: rest, acc =>
    if c - w + 1 < 0 then
      .error (.badParameter
        ("Offset around cut would extend to the left of the amplicon. Please decrease plot_window_size parameter. Cut point: "
          ++ toString c ++ " window: " ++ toString w))
    else if c - w > L - 1 then
      .error (.badParameter
        ("Offset around cut would be greater than sequence length . Please decrease plot_window_size parameter. Cut point: "
          ++ toString c ++ " window: " ++ toString w))
    else
      plotLoop L w rest
        (acc ++ intRange (max 0 (c - w + 1)) (min (L - 1) (c + w + 1)))

/-- Lines 483-494: plot indices.  `np.ravel` at line 496 flattens the
appended ranges, modelled here by accumulating one flat list. -/
def plot_idxs_of (L : Int) (cuts : List Int) (pws : Int) : Except GuideErr (List Int) :=
  if cuts ≠ [] ∧ pws > 0 then plotLoop L (max 1 (Int.fdiv pws 2)) cuts []
  else .ok (intRange 0 L)

structure AmpliconInfo where
  sequences : List String
  intervals : List (Int × Int)
  cut_points : List Int
  plot_offsets : List Nat
  include_idxs : List Int
  exclude_idxs : List Int
  plot_idxs : List Int
deriving DecidableEq, Repr

/-- Lines 393-498.  The branch at line 447 tests
`quantification_window_coordinates is not None and len(...) > idx`; `idx` is
an unbound name (the guide loop variable is `guide_idx` and no global `idx`
exists), so whenever explicit coordinates are supplied, evaluating the
condition raises `NameError` and the range-parsing code at lines 448-458 is
unreachable dead code.  When the parameter is `None` the conjunction
short-circuits and no error occurs. -/
def get_amplicon_info_for_guides (ref_seq : String) (guides : List String)
    (quantification_window_center quantification_window_size : Int)
    (quantification_window_coordinates : Option String)
    (exclude_bp_from_left exclude_bp_from_right plot_window_size : Int) :
    Except GuideErr AmpliconInfo :=
  match guideScan quantification_window_center ref_seq guides with
  | .error e => .error e
  | .ok scan =>
    match quantification_window_coordinates with
    | some _ => .error .nameError
    | none =>
      if quant_include (ref_seq.length : Int) scan.cut_points
          quantification_window_size exclude_bp_from_left exclude_bp_from_right = [] then
        .error (.badParameter
          "The entire sequence has been excluded. Please enter a longer amplicon, or decrease the exclude_bp_from_right and exclude_bp_from_left parameters")
      else
        match plot_idxs_of (ref_seq.length : Int) scan.cut_points plot_window_size with
        | .error e => .error e
        | .ok plt =>
          .ok ⟨scan.sequences, scan.intervals, scan.cut_points, scan.plot_offsets,
            quant_include (ref_seq.length : Int) scan.cut_points
              quantification_window_size exclude_bp_from_left exclude_bp_from_right,
            exclude_idxs_of (ref_seq.length : Int) exclude_bp_from_left exclude_bp_from_right,
            plt⟩

/-! ### guess_amplicons (lines 310-358)

The alignment engine is external (`cnwalign.global_align`), so the
normalized similarity score is an oracle `score : String → String → ℚ`:
`fwscore = score seq amp_seq` and `rvscore = score (rc seq) amp_seq`.
The ranked reads are the already-parsed `(count, sequence)` pairs of
`get_most_frequent_reads`. -/

/-- Line 349: `fwscore > amplicon_similarity_cutoff or rvscore > amplicon_similarity_cutoff`
for the current read `s` (with reverse complement `rs`) against candidate `amp`. -/
def simMatch (score : String → String → ℚ) (cutoff : ℚ) (s rs amp : String) : Bool :=
  decide (score s amp > cutoff) || decide (score rs amp > cutoff)

/-- Lines 344-354: `for amp_seq in amplicon_seq_arr:` — the loop iterates over
the very list it appends to, so `pending` is the not-yet-visited suffix and
`acc` the whole list; a non-matching candidate appends the read `s` to both.
If the read matched nothing (not even itself) the Python loop would never
terminate; `fuel` makes the model total, and `2 * length + 2` fuel is shown
below to be enough whenever the read matches its own copies. -/
def ampLoop (score : String → String → ℚ) (cutoff : ℚ) (s rs : String) :
    Nat → List String → List String → List String
  | 0, _, acc => acc
  | _ + 1, [], acc => acc
  | fuel + 1, amp :: pending, acc =>
    if simMatch score cutoff s rs amp then ampLoop score cutoff s rs fuel pending acc
    else ampLoop score cutoff s rs fuel (pending ++ [s]) (acc ++ [s])

/-- The whole inner loop for one read: iteration starts at the head of the
current candidate list. -/
def guessStep (score : String → String → ℚ) (cutoff : ℚ) (s rs : String)
    (acc : List String) : List String :=
  ampLoop score cutoff s rs (2 * acc.length + 2) acc acc

/-- Lines 339-356: walk the ranked reads; before read `i` is considered the
*previous* read `seq_lines[i-1]` must be frequent enough, else `break`.
`reverse_complement(seq)` is evaluated inside the inner loop, whose first
iteration always runs (the candidate list is never empty), so a `KeyError`
(`none`) surfaces exactly when the frequency test passes. -/
def guessWalk (score : String → String → ℚ) (cutoff minfreq : ℚ) (N : Nat) :
    (Nat × String) → List (Nat × String) → List String → Option (List String)
  | _, [], acc => some acc
  | prev, p :: rest, acc =>
    if (mkRat (prev.1 : Int) N > minfreq) then
      match reverse_complement p.2 with
      | none => none
      | some rs => guessWalk score cutoff minfreq N p rest (guessStep score cutoff p.2 rs acc)
    else some acc

/-- Lines 327-358 (minus the external read-counting step): the most frequent
read is appended unconditionally, then the ranked remainder is walked.
An empty ranked list raises `IndexError` at line 334 (`none`).  `N` is
`number_of_reads_to_consider`. -/
def guess_amplicons (score : String → String → ℚ) (cutoff minfreq : ℚ) (N : Nat) :
    List (Nat × String) → Option (List String)
  | [] => none
  | first :: rest => guessWalk score cutoff minfreq N first rest [first.2]

/-- The reads `guess_amplicons` actually considers: the longest prefix of the
ranked tail such that each read's *predecessor* (the `.1` component of the
zipped pair) passes the frequency test.  The predicate only ever inspects
the previous read of the pair, never the current one. -/
def consideredReads (minfreq : ℚ) (N : Nat) (first : Nat × String)
    (rest : List (Nat × String)) : List (Nat × String) :=
  (((first :: rest).zip rest).takeWhile
    (fun pc => decide (mkRat (pc.1.1 : Int) N > minfreq))).map Prod.snd

/-! ### get_row_around_cut (lines 365-377) -/

/-- One row of the alleles table (the fields read by `get_row_around_cut`).
`%Reads` is a float carried through unchanged, modelled as `ℚ`. -/
structure AlleleRow where
  Aligned_Sequence : String
  Reference_Sequence : String
  Read_Status : String
  ref_positions : List Int
  n_deleted : Int
  n_inserted : Int
  n_mutated : Int
  reads : Int
  pct_reads : ℚ
deriving DecidableEq, Repr

structure AlleleWindowRow where
  aligned_window : String
  reference_window : String
  unedited : Bool
  n_deleted : Int
  n_inserted : Int
  n_mutated : Int
  reads : Int
  pct_reads : ℚ
deriving DecidableEq, Repr

/-- Python `list.index`: the first index holding the value, else `ValueError`. -/
def pyIndex : List Int → Int → Option Nat
  | [], _ => none
  | x :: xs, c => if x = c then some 0 else (pyIndex xs c).map (· + 1)

/-- The `ValueError` message `list.index` raises. -/
def valueErrMsg (c : Int) : String := toString c ++ " is not in list"

/-- Normalize one Python slice endpoint: negative indices count from the end,
then both are clamped into `[0, n]`. -/
def pySliceIdx (n : Nat) (i : Int) : Nat :=
  if i < 0 then (max 0 ((n : Int) + i)).toNat else (min i (n : Int)).toNat

/-- Python string slice `s[a:b]` with `int` endpoints. -/
def pySliceStr (s : String) (a b : Int) : String :=
  String.mk (((s.data).drop (pySliceIdx s.data.length a)).take
    (pySliceIdx s.data.length b - pySliceIdx s.data.length a))

/-- The plain substring of positions `[a, b)` (clamped only at the right
end, as an interval of valid positions is). -/
def sliceInterval (s : String) (a b : Nat) : String :=
  String.mk ((s.data.drop a).take (b - a))

/-- Lines 365-367: find the aligned index mapped to the cut point and slice
`[cut_idx-offset+1, cut_idx+offset+1)` out of both sequences; absence of the
cut point in `ref_positions` is a `ValueError`. -/
def get_row_around_cut (row : AlleleRow) (cut_point offset : Int) :
    Except String AlleleWindowRow :=
  match pyIndex row.ref_positions cut_point with
  | none => .error (valueErrMsg cut_point)
  | some cut_idx =>
    .ok ⟨pySliceStr row.Aligned_Sequence ((cut_idx : Int) - offset + 1) ((cut_idx : Int) + offset + 1),
         pySliceStr row.Reference_Sequence ((cut_idx : Int) - offset + 1) ((cut_idx : Int) + offset + 1),
         row.Read_Status == "UNMODIFIED",
         row.n_deleted, row.n_inserted, row.n_mutated, row.reads, row.pct_reads⟩

/-- The row-extraction pass of `get_dataframe_around_cut` (lines 370-372):
`df_alleles.apply(lambda row: get_row_around_cut(row,cut_point,offset),axis=1)`
evaluates the rows in order and the first raised exception propagates,
producing no output table.  (The subsequent grouping/sorting of the
successful case is outside the scope of the claims.) -/
def get_dataframe_around_cut_rows (rows : List AlleleRow) (cut_point offset : Int) :
    Except String (List AlleleWindowRow) :=
  match rows with
  | [] => .ok []
  | r :: rs =>
    match get_row_around_cut r cut_point offset with
    | .error e => .error e
    | .ok v =>
      match get_dataframe_around_cut_rows rs cut_point offset with
      | .error e => .error e
      | .ok vs => .ok (v :: vs)

/-! ### Concrete oracles and rows used by witnesses and counterexamples -/

/-- A concrete similarity oracle: 1 for identical sequences, 0 otherwise
(the real aligner scores identical sequences 1.0). -/
def eqScore (x y : String) : ℚ := if x = y then 1 else 0

/-- A concrete similarity oracle under which "AGAG" also counts as similar
to the candidate "ACAC". -/
def eqScore2 (x y : String) : ℚ :=
  if x = y ∨ (x = "AGAG" ∧ y = "ACAC") then 1 else 0

def row0 : AlleleRow := ⟨"ACGT", "ACGT", "UNMODIFIED", [0, 1, 2, 3], 0, 0, 0, 10, mkRat 5 2⟩

/-! ### Helper lemmas -/

theorem mem_intRange {x a b : Int} : x ∈ intRange a b ↔ a ≤ x ∧ x < b := by
  unfold intRange
  simp only [List.mem_map, List.mem_range]
  constructor
  · rintro ⟨i, hi, rfl⟩
    omega
  · rintro ⟨h1, h2⟩
    exact ⟨(x - a).toNat, by omega, by omega⟩

theorem mem_pySliceFrom {x : Int} {l : List Int} {s : Int} (h : x ∈ pySliceFrom l s) :
    x ∈ l := by
  unfold pySliceFrom at h
  split at h
  · exact List.drop_subset _ _ h
  · exact List.drop_subset _ _ h

theorem mem_insertSorted {x y : Int} {l : List Int} :
    x ∈ insertSorted y l ↔ x = y ∨ x ∈ l := by
  induction l with
  | nil => simp [insertSorted]
  | cons z zs ih =>
    unfold insertSorted
    by_cases h : y ≤ z
    · simp [h]
    · simp [h, ih]
      tauto

theorem mem_sortInts {x : Int} {l : List Int} : x ∈ sortInts l ↔ x ∈ l := by
  induction l with
  | nil => simp [sortInts]
  | cons z zs ih =>
    unfold sortInts at ih ⊢
    simp [List.foldr_cons, mem_insertSorted, ih]

theorem mem_setdiff1d {x : Int} {a b : List Int} :
    x ∈ setdiff1d a b ↔ x ∈ a ∧ x ∉ b := by
  unfold setdiff1d
  rw [mem_sortInts, List.mem_dedup, List.mem_filter, decide_eq_true_iff]

theorem setdiff1d_eq_nil {a b : List Int} (h : ∀ x ∈ a, x ∈ b) :
    setdiff1d a b = [] := by
  by_contra hne
  obtain ⟨x, hx⟩ := List.exists_mem_of_ne_nil _ hne
  rw [mem_setdiff1d] at hx
  exact hx.2 (h x hx.1)

theorem mem_foldl_append {α : Type} {f : α → List Int} :
    ∀ {cuts : List α} {init : List Int} {x : Int},
      x ∈ cuts.foldl (fun acc c => acc ++ f c) init ↔ x ∈ init ∨ ∃ c ∈ cuts, x ∈ f c := by
  intro cuts
  induction cuts with
  | nil => intro init x; simp
  | cons c cs ih =>
    intro init x
    rw [List.foldl_cons, ih, List.mem_append]
    simp only [List.mem_cons]
    constructor
    · rintro ((h | h) | ⟨d, hd, hx⟩)
      · exact Or.inl h
      · exact Or.inr ⟨c, Or.inl rfl, h⟩
      · exact Or.inr ⟨d, Or.inr hd, hx⟩
    · rintro (h | ⟨d, (rfl | hd), hx⟩)
      · exact Or.inl (Or.inl h)
      · exact Or.inl (Or.inr hx)
      · exact Or.inr ⟨d, hd, hx⟩

theorem window_include_bounds {L : Int} {cuts : List Int} {qws x : Int}
    (h : x ∈ window_include L cuts qws) : 0 ≤ x ∧ x ≤ L - 1 := by
  unfold window_include at h
  split at h
  · rw [mem_foldl_append] at h
    rcases h with h | ⟨c, _, hc⟩
    · simp at h
    · rw [mem_intRange] at hc; omega
  · rw [mem_intRange] at h; omega

theorem mem_exclude_cases {L el er x : Int} (h : x ∈ exclude_idxs_of L el er) :
    (0 ≤ x ∧ x < el) ∨ (0 ≤ x ∧ x < L) := by
  unfold exclude_idxs_of at h
  rw [List.mem_append] at h
  rcases h with h | h
  · split at h
    · rw [mem_intRange] at h; exact Or.inl h
    · simp at h
  · split at h
    · have hmem := mem_pySliceFrom h
      rw [mem_intRange] at hmem
      exact Or.inr hmem
    · simp at h

theorem plotLoop_ok_mem {L w : Int} :
    ∀ {cuts acc p : List Int}, plotLoop L w cuts acc = .ok p →
      ∀ {x : Int}, x ∈ p → x ∈ acc ∨ (0 ≤ x ∧ x ≤ L - 1) := by
  intro cuts
  induction cuts with
  | nil =>
    intro acc p h x hx
    unfold plotLoop at h
    injection h with h
    subst h
    exact Or.inl hx
  | cons c cs ih =>
    intro acc p h x hx
    unfold plotLoop at h
    split at h
    · exact Except.noConfusion h
    · split at h
      · exact Except.noConfusion h
      · rcases ih h hx with hacc | hb
        · rw [List.mem_append] at hacc
          rcases hacc with h1 | h2
          · exact Or.inl h1
          · rw [mem_intRange] at h2
            right
            omega
        · exact Or.inr hb

theorem plot_idxs_of_bounds {L : Int} {cuts : List Int} {pws : Int} {p : List Int}
    (h : plot_idxs_of L cuts pws = .ok p) {x : Int} (hx : x ∈ p) :
    0 ≤ x ∧ x ≤ L - 1 := by
  unfold plot_idxs_of at h
  split at h
  · rcases plotLoop_ok_mem h hx with h1 | h2
    · simp at h1
    · exact h2
  · injection h with h
    subst h
    rw [mem_intRange] at hx
    omega

/-- Inversion of a successful run of `get_amplicon_info_for_guides`: the
guide scan succeeded, no explicit coordinates were supplied (they would
raise `NameError`), the include set passed the non-emptiness guard, and the
returned index sets are exactly the computed ones. -/
theorem amplicon_info_ok_inv {ref_seq : String} {guides : List String}
    {wc qws : Int} {coords : Option String} {el er pws : Int} {r : AmpliconInfo}
    (h : get_amplicon_info_for_guides ref_seq guides wc qws coords el er pws = .ok r) :
    ∃ scan, guideScan wc ref_seq guides = .ok scan ∧
      quant_include (ref_seq.length : Int) scan.cut_points qws el er ≠ [] ∧
      r.include_idxs = quant_include (ref_seq.length : Int) scan.cut_points qws el er ∧
      r.exclude_idxs = exclude_idxs_of (ref_seq.length : Int) el er ∧
      plot_idxs_of (ref_seq.length : Int) scan.cut_points pws = .ok r.plot_idxs := by
  unfold get_amplicon_info_for_guides at h
  split at h
  · exact Except.noConfusion h
  · rename_i scan hscan
    split at h
    · exact Except.noConfusion h
    · split at h
      · exact Except.noConfusion h
      · rename_i hne
        split at h
        · exact Except.noConfusion h
        · rename_i plt hplt
          injection h with h
          subst h
          exact ⟨scan, hscan, hne, rfl, rfl, hplt⟩

/-! ### Claims about get_amplicon_info_for_guides -/

/-- C1: the claim says a supplied `quantification_window_coordinates` string
is parsed as comma/underscore-separated inclusive `start-end` ranges with a
bounds check on each end.  That is the documented intent (docstring, CLI help
and spec), but line 447 guards the branch with `len(...) > idx` where `idx`
is an unbound name, so the code instead raises `NameError` for every
supplied override and the parsing code is unreachable: a code bug.  This
theorem evaluates the embedding at a failing input. -/
theorem C1_override_name_error :
    get_amplicon_info_for_guides "AAAACCCCGGGGTTTT" ["CCCCGGGG"] (-3) 6 (some "4-7") 0 0 0
      = .error GuideErr.nameError := by decide

/-- C3 (counterexample): in the claimed scenario the include set is not
`{6,7,8,9}`: the guide `CCCCGGGG` is its own reverse complement, so a second
cut point 6 arises, and each window is `[cut-2, cut+4)` clipped, giving
`{4,...,11}` — which contains 4, absent from the claimed set. -/
theorem C3_include_counterexample :
    (get_amplicon_info_for_guides "AAAACCCCGGGGTTTT" ["CCCCGGGG"] (-3) 6 none 0 0 0).map
        (fun r => r.include_idxs) = .ok [4, 5, 6, 7, 8, 9, 10, 11]
      ∧ (4 : Int) ∈ ([4, 5, 6, 7, 8, 9, 10, 11] : List Int)
      ∧ (4 : Int) ∉ ([6, 7, 8, 9] : List Int) := by decide

/-- C3 (amended): for reference `AAAACCCCGGGGTTTT`, guide `CCCCGGGG`,
center -3, window size 6, no override and zero exclusions, the function
yields cut points `[8, 6]` (the forward cut point 8 plus 6 from the guide's
reverse-complement occurrence at the same position, the guide being its own
reverse complement) and include set `{4,...,11}`, the union of the clipped
windows `[6,12)` and `[4,10)`. -/
theorem C3_scenario_amended :
    get_amplicon_info_for_guides "AAAACCCCGGGGTTTT" ["CCCCGGGG"] (-3) 6 none 0 0 0
      = .ok ⟨["CCCCGGGG"], [(4, 11), (4, 11)], [8, 6], [1],
             [4, 5, 6, 7, 8, 9, 10, 11], [],
             [0, 1, 2, 3, 4, 5, 6, 7, 8, 9, 10, 11, 12, 13, 14, 15]⟩ := by decide

/-- C4 (counterexample): guide `ACGTACGT` occurs in `ACGTACGT` both forward
and as its reverse complement (it is its own reverse complement), with cut
points 4 (forward) and 2 (reverse-complement); their difference is 2, not
`len(guide) - 1 = 7`. -/
theorem C4_cut_diff_counterexample :
    (get_amplicon_info_for_guides "ACGTACGT" ["ACGTACGT"] (-3) 1 none 0 0 0).map
        (fun r => r.cut_points) = .ok [4, 2]
      ∧ (4 - 2 : Int) ≠ (("ACGTACGT" : String).length : Int) - 1 := by decide

/-- C4 (amended): a forward match at `mf` and a reverse-complement match at
`mr` give cut points differing by `(mf - mr) + 2*window_center + len(guide)`
— not `len(guide) - 1`; for `ACGTACGT` with center -3 both matches are at
position 0 and the cut points `0 + offset_fw` and `0 + offset_rc` differ
by 2. -/
theorem C4_cut_diff_amended :
    (∀ (wc : Int) (g : String) (mf mr : Int),
        (mf + offset_fw wc g) - (mr + offset_rc wc) = (mf - mr) + 2 * wc + (g.length : Int))
      ∧ (get_amplicon_info_for_guides "ACGTACGT" ["ACGTACGT"] (-3) 1 none 0 0 0).map
          (fun r => r.cut_points)
        = .ok [0 + offset_fw (-3) "ACGTACGT", 0 + offset_rc (-3)] := by
  constructor
  · intro wc g mf mr
    unfold offset_fw offset_rc
    ring
  · decide

/-- C5: the claim says a plot window extending past the last valid position
must raise and is never silently clipped.  The code's right-bound check at
line 488 is `cut_p - window_around_cut > ref_seq_length-1` (a minus, where
the error message's advice — decrease `plot_window_size` — only makes sense
for `cut_p + window_around_cut`), so a window overhanging the right end is
silently clipped by the `min` at line 491: a code bug.  Here cut point 12
with half-width 4 covers up to position 16 > 15, yet the function returns
successfully with the clipped plot range `[9,15)`. -/
theorem C5_plot_clip_code_bug :
    (get_amplicon_info_for_guides "TTTTTTTTTTTTACGG" ["ACGG"] (-3) 1 none 0 0 8).map
        (fun r => r.plot_idxs) = .ok [9, 10, 11, 12, 13, 14]
      ∧ 12 + max 1 (Int.fdiv 8 2) > (("TTTTTTTTTTTTACGG" : String).length : Int) - 1 := by
  decide

/-- C6: whenever `get_amplicon_info_for_guides` returns without raising, the
returned include set is disjoint from the returned exclude set and is
non-empty; an include set emptied by the exclusions is rejected with a
`BadParameterException` instead of returning. -/
theorem C6_include_exclude_invariant (ref_seq : String) (guides : List String)
    (wc qws : Int) (coords : Option String) (el er pws : Int) (r : AmpliconInfo)
    (h : get_amplicon_info_for_guides ref_seq guides wc qws coords el er pws = .ok r) :
    (∀ x ∈ r.include_idxs, x ∉ r.exclude_idxs) ∧ r.include_idxs ≠ [] := by
  obtain ⟨scan, _, hne, hinc, hexc, _⟩ := amplicon_info_ok_inv h
  refine ⟨?_, ?_⟩
  · intro x hx
    rw [hinc] at hx
    rw [hexc]
    unfold quant_include at hx
    exact (mem_setdiff1d.mp hx).2
  · rw [hinc]
    exact hne

theorem C6_include_exclude_invariant_witness : ([4, 5, 6, 7, 8, 9, 10, 11] : List Int) ≠ [] :=
  (C6_include_exclude_invariant "AAAACCCCGGGGTTTT" ["CCCCGGGG"] (-3) 6 none 0 0 0
    ⟨["CCCCGGGG"], [(4, 11), (4, 11)], [8, 6], [1], [4, 5, 6, 7, 8, 9, 10, 11], [],
     [0, 1, 2, 3, 4, 5, 6, 7, 8, 9, 10, 11, 12, 13, 14, 15]⟩ (by decide)).2

/-- C7: whenever `get_amplicon_info_for_guides` returns without raising —
for every reference, guide list and configuration, including exclusion
widths larger than the reference length — every index in the returned
include, exclude and plot sets lies within `[0, ref_seq_length - 1]`.
(An oversized `exclude_bp_from_left` would put out-of-range indices in the
exclude list, but any such configuration also empties the include set and
therefore raises instead of returning.) -/
theorem C7_index_bounds (ref_seq : String) (guides : List String)
    (wc qws : Int) (coords : Option String) (el er pws : Int) (r : AmpliconInfo)
    (h : get_amplicon_info_for_guides ref_seq guides wc qws coords el er pws = .ok r)
    (x : Int)
    (hx : x ∈ r.include_idxs ∨ x ∈ r.exclude_idxs ∨ x ∈ r.plot_idxs) :
    0 ≤ x ∧ x ≤ (ref_seq.length : Int) - 1 := by
  obtain ⟨scan, _, hne, hinc, hexc, hplot⟩ := amplicon_info_ok_inv h
  rcases hx with hx | hx | hx
  · rw [hinc] at hx
    unfold quant_include at hx
    exact window_include_bounds (mem_setdiff1d.mp hx).1
  · rw [hexc] at hx
    rcases mem_exclude_cases hx with ⟨h0, hel⟩ | ⟨h0, hL⟩
    · by_cases hxL : x ≤ (ref_seq.length : Int) - 1
      · exact ⟨h0, hxL⟩
      · exfalso
        apply hne
        unfold quant_include
        apply setdiff1d_eq_nil
        intro y hy
        have hyb := window_include_bounds hy
        unfold exclude_idxs_of
        rw [List.mem_append]
        left
        rw [if_pos (show el ≠ 0 by omega)]
        rw [mem_intRange]
        omega
    · exact ⟨h0, by omega⟩
  · exact plot_idxs_of_bounds hplot hx

theorem C7_index_bounds_witness :
    0 ≤ (5 : Int) ∧ (5 : Int) ≤ (("AAAACCCCGGGGTTTT" : String).length : Int) - 1 :=
  C7_index_bounds "AAAACCCCGGGGTTTT" ["CCCCGGGG"] (-3) 6 none 0 0 0
    ⟨["CCCCGGGG"], [(4, 11), (4, 11)], [8, 6], [1], [4, 5, 6, 7, 8, 9, 10, 11], [],
     [0, 1, 2, 3, 4, 5, 6, 7, 8, 9, 10, 11, 12, 13, 14, 15]⟩ (by decide) 5 (by decide)

/-! ### Claims about guess_amplicons -/

/-- C2 (counterexample): with similarity oracle `eqScore` (1 for identical
sequences, 0 otherwise), cutoff 0.95, the third ranked read `AGAG` matches
no existing candidate yet is appended twice — once per non-matching
candidate — refuting "appended exactly once"; and with oracle `eqScore2`
(under which `AGAG` scores 1 against the existing candidate `ACAC`), `AGAG`
is still added, refuting "a read scoring above the cutoff against some
existing candidate is never added". -/
theorem C2_append_counterexample :
    guess_amplicons eqScore (mkRat 19 20) (mkRat 1 100) 1000
        [(100, "AAAA"), (90, "ACAC"), (80, "AGAG")]
      = some ["AAAA", "ACAC", "AGAG", "AGAG"]
      ∧ (["AAAA", "ACAC", "AGAG", "AGAG"].count "AGAG" = 2)
      ∧ guess_amplicons eqScore2 (mkRat 19 20) (mkRat 1 100) 1000
          [(100, "AAAA"), (90, "ACAC"), (80, "AGAG")]
        = some ["AAAA", "ACAC", "AGAG"]
      ∧ eqScore2 "AGAG" "ACAC" > mkRat 19 20
      ∧ "AGAG" ∈ ["AAAA", "ACAC", "AGAG"] := by decide

theorem ampLoop_all_match {score : String → String → ℚ} {cutoff : ℚ} {s rs : String} :
    ∀ {q : List String} {fuel : Nat} {acc : List String},
      (∀ a ∈ q, simMatch score cutoff s rs a = true) → q.length < fuel →
      ampLoop score cutoff s rs fuel q acc = acc := by
  intro q
  induction q with
  | nil =>
    intro fuel acc _ hfuel
    cases fuel with
    | zero => omega
    | succ f => rfl
  | cons a q ih =>
    intro fuel acc hall hfuel
    cases fuel with
    | zero => omega
    | succ f =>
      simp only [ampLoop]
      rw [if_pos (hall a (List.mem_cons_self a q))]
      refine ih (fun b hb => hall b (List.mem_cons_of_mem a hb)) ?_
      simp only [List.length_cons] at hfuel
      omega

theorem ampLoop_split {score : String → String → ℚ} {cutoff : ℚ} {s rs : String}
    (hself : simMatch score cutoff s rs s = true) :
    ∀ (p q acc : List String) (fuel : Nat),
      (∀ a ∈ q, simMatch score cutoff s rs a = true) →
      2 * p.length + q.length < fuel →
      ampLoop score cutoff s rs fuel (p ++ q) acc
        = acc ++ List.replicate (p.countP (fun a => !simMatch score cutoff s rs a)) s := by
  intro p
  induction p with
  | nil =>
    intro q acc fuel hq hfuel
    rw [List.nil_append, ampLoop_all_match hq (by simpa using hfuel)]
    simp
  | cons a p ih =>
    intro q acc fuel hq hfuel
    cases fuel with
    | zero => omega
    | succ f =>
      simp only [List.cons_append, ampLoop, List.append_eq]
      by_cases hm : simMatch score cutoff s rs a = true
      · rw [if_pos hm]
        rw [ih q acc f hq (by simp only [List.length_cons] at hfuel; omega)]
        simp [List.countP_cons, hm]
      · rw [if_neg hm]
        rw [List.append_assoc]
        rw [ih (q ++ [s]) (acc ++ [s]) f ?_ ?_]
        · rw [List.countP_cons]
          simp only [Bool.not_eq_true] at hm
          simp [hm, List.replicate_succ, List.append_assoc]
        · intro b hb
          rcases List.mem_append.mp hb with hb | hb
          · exact hq b hb
          · rw [List.mem_singleton] at hb
            subst hb
            exact hself
        · simp only [List.length_cons, List.length_append, List.length_nil] at hfuel ⊢
          omega

/-- C2 (amended): the similarity decision of `guess_amplicons` is taken per
existing candidate inside the inner loop, which iterates over the list it
appends to: provided the read matches its own copies (its self-similarity
score — 1.0 for a real aligner — exceeds the cutoff), the read is appended
exactly once for *each* candidate whose forward and reverse-complement
scores are at or below the cutoff, and is appended after no matching
candidate.  With a single existing candidate this yields the claim's two
instances (an identical read is dropped; a read at or below the cutoff
against the lone candidate is appended exactly once); with two or more
non-matching candidates the read is appended multiple times, and a read
similar to only some candidates is still appended. -/
theorem C2_inner_loop_amended (score : String → String → ℚ) (cutoff : ℚ)
    (s rs : String) (acc : List String)
    (hself : simMatch score cutoff s rs s = true) :
    guessStep score cutoff s rs acc
      = acc ++ List.replicate (acc.countP (fun a => !simMatch score cutoff s rs a)) s := by
  unfold guessStep
  have h := ampLoop_split hself acc [] acc (2 * acc.length + 2)
    (fun a ha => absurd ha (List.not_mem_nil a)) (by simp)
  rw [List.append_nil] at h
  exact h

theorem C2_inner_loop_amended_witness :
    guessStep eqScore (mkRat 19 20) "ACAC" "GTGT" ["AAAA"]
      = ["AAAA"] ++ List.replicate
          (["AAAA"].countP (fun a => !simMatch eqScore (mkRat 19 20) "ACAC" "GTGT" a)) "ACAC" :=
  C2_inner_loop_amended eqScore (mkRat 19 20) "ACAC" "GTGT" ["AAAA"] (by decide)

theorem guessWalk_eq (score : String → String → ℚ) (cutoff minfreq : ℚ) (N : Nat) :
    ∀ (rest : List (Nat × String)) (prev : Nat × String) (acc : List String),
      guessWalk score cutoff minfreq N prev rest acc
        = (consideredReads minfreq N prev rest).foldlM
            (fun a cur => (reverse_complement cur.2).map
              (fun rs => guessStep score cutoff cur.2 rs a)) acc := by
  intro rest
  induction rest with
  | nil =>
    intro prev acc
    simp [guessWalk, consideredReads]
  | cons hd tl ih =>
    intro prev acc
    unfold guessWalk consideredReads
    rw [List.zip_cons_cons, List.takeWhile_cons]
    by_cases hp : mkRat (prev.1 : Int) N > minfreq
    · rw [if_pos hp,
        if_pos (show decide
            (mkRat (((prev, hd) : (Nat × String) × (Nat × String)).1.1 : Int) N > minfreq) = true
          from by simpa using hp)]
      rw [List.map_cons, List.foldlM_cons]
      cases hrc : reverse_complement hd.2 with
      | none => simp [hrc]
      | some rs =>
        simp only [hrc, Option.map_some']
        have h2 := ih hd (guessStep score cutoff hd.2 rs acc)
        unfold consideredReads at h2
        rw [h2]
        rfl
    · rw [if_neg hp,
        if_neg (show ¬(decide
            (mkRat (((prev, hd) : (Nat × String) × (Nat × String)).1.1 : Int) N > minfreq) = true)
          from by simpa using hp)]
      simp

/-- C9: `guess_amplicons` considers exactly the longest prefix of the ranked
tail on which each read's *previous* read passes the frequency test
`prev_count / N > min_freq_to_consider` — a one-read lookback: the
`takeWhile` predicate inspects only the first (previous-read) component of
each consecutive pair and never the current read's own count — and every
read before the stop point is processed, in order, by the inner candidate
loop. -/
theorem C9_early_stop_lookback (score : String → String → ℚ) (cutoff minfreq : ℚ)
    (N : Nat) (first : Nat × String) (rest : List (Nat × String)) :
    guess_amplicons score cutoff minfreq N (first :: rest)
      = (consideredReads minfreq N first rest).foldlM
          (fun acc cur => (reverse_complement cur.2).map
            (fun rs => guessStep score cutoff cur.2 rs acc))
          [first.2] := by
  unfold guess_amplicons
  exact guessWalk_eq score cutoff minfreq N rest first [first.2]

theorem drop_take_clamp {α : Type} (l : List α) (a b : Nat) :
    (l.drop (min a l.length)).take (min b l.length - min a l.length)
      = (l.drop a).take (b - a) := by
  rcases le_or_lt a l.length with h | h
  · rw [Nat.min_eq_left h]
    rcases le_or_lt b l.length with h2 | h2
    · rw [Nat.min_eq_left h2]
    · rw [Nat.min_eq_right (Nat.le_of_lt h2)]
      have e1 : (l.drop a).take (l.length - a) = l.drop a :=
        List.take_of_length_le (by rw [List.length_drop])
      have e2 : (l.drop a).take (b - a) = l.drop a :=
        List.take_of_length_le (by rw [List.length_drop]; omega)
      rw [e1, e2]
  · rw [Nat.min_eq_right (Nat.le_of_lt h), List.drop_length,
      List.drop_eq_nil_of_le (Nat.le_of_lt h)]
    simp

/-- For non-negative endpoints a Python slice is the plain interval
substring (Python's right-end clamping and empty-on-reversed-bounds
behaviour coincide with `take`/`drop` arithmetic). -/
theorem pySliceStr_eq_interval (s : String) (a b : Int) (ha : 0 ≤ a) (hb : 0 ≤ b) :
    pySliceStr s a b = sliceInterval s a.toNat b.toNat := by
  unfold pySliceStr sliceInterval pySliceIdx
  rw [if_neg (by omega), if_neg (by omega)]
  have h1 : (min a (s.data.length : Int)).toNat = min a.toNat s.data.length := by omega
  have h2 : (min b (s.data.length : Int)).toNat = min b.toNat s.data.length := by omega
  rw [h1, h2, drop_take_clamp s.data a.toNat b.toNat]

theorem get_row_eq_of_some {row : AlleleRow} {c off : Int} {i : Nat}
    (h : pyIndex row.ref_positions c = some i) :
    get_row_around_cut row c off
      = .ok ⟨pySliceStr row.Aligned_Sequence ((i : Int) - off + 1) ((i : Int) + off + 1),
             pySliceStr row.Reference_Sequence ((i : Int) - off + 1) ((i : Int) + off + 1),
             row.Read_Status == "UNMODIFIED",
             row.n_deleted, row.n_inserted, row.n_mutated, row.reads, row.pct_reads⟩ := by
  unfold get_row_around_cut
  rw [h]

theorem get_row_eq_of_none {row : AlleleRow} {c off : Int}
    (h : pyIndex row.ref_positions c = none) :
    get_row_around_cut row c off = .error (valueErrMsg c) := by
  unfold get_row_around_cut
  rw [h]

theorem get_row_error_inv {row : AlleleRow} {c off : Int} {e : String}
    (h : get_row_around_cut row c off = .error e) : e = valueErrMsg c := by
  unfold get_row_around_cut at h
  split at h
  · injection h with h
    exact h.symm
  · exact Except.noConfusion h

/-- C8: if the cut point occurs in a record's `ref_positions` at (first)
index `i`, `get_row_around_cut` returns the slices `[i-offset+1, i+offset+1)`
of the aligned and reference sequences (as plain interval substrings, for
any half-window that does not underflow the left end) together with the
unedited flag and the pass-through counts; if the cut point does not occur,
the row operation — and with it the whole row-extraction pass of
`get_dataframe_around_cut` — fails with the propagated `ValueError` and
produces no row. -/
theorem C8_row_around_cut :
    (∀ (row : AlleleRow) (c off : Int) (i : Nat),
        pyIndex row.ref_positions c = some i → 0 ≤ off → off ≤ (i : Int) + 1 →
        get_row_around_cut row c off
          = .ok ⟨sliceInterval row.Aligned_Sequence ((i : Int) - off + 1).toNat
                   ((i : Int) + off + 1).toNat,
                 sliceInterval row.Reference_Sequence ((i : Int) - off + 1).toNat
                   ((i : Int) + off + 1).toNat,
                 row.Read_Status == "UNMODIFIED",
                 row.n_deleted, row.n_inserted, row.n_mutated, row.reads, row.pct_reads⟩)
      ∧ (∀ (row : AlleleRow) (c off : Int),
          pyIndex row.ref_positions c = none →
          get_row_around_cut row c off = .error (valueErrMsg c))
      ∧ (∀ (rows : List AlleleRow) (row : AlleleRow) (c off : Int),
          row ∈ rows → pyIndex row.ref_positions c = none →
          get_dataframe_around_cut_rows rows c off = .error (valueErrMsg c)) := by
  refine ⟨?_, ?_, ?_⟩
  · intro row c off i hidx hoff1 hoff2
    rw [get_row_eq_of_some hidx,
      pySliceStr_eq_interval row.Aligned_Sequence ((i : Int) - off + 1) ((i : Int) + off + 1)
        (by omega) (by omega),
      pySliceStr_eq_interval row.Reference_Sequence ((i : Int) - off + 1) ((i : Int) + off + 1)
        (by omega) (by omega)]
  · intro row c off hidx
    exact get_row_eq_of_none hidx
  · intro rows
    induction rows with
    | nil =>
      intro row c off hmem _
      exact absurd hmem (List.not_mem_nil row)
    | cons r rs ih =>
      intro row c off hmem hidx
      unfold get_dataframe_around_cut_rows
      rcases List.mem_cons.mp hmem with rfl | hmem2
      · rw [get_row_eq_of_none hidx]
      · cases hr : get_row_around_cut r c off with
        | error e => rw [get_row_error_inv hr]
        | ok v => rw [ih row c off hmem2 hidx]

theorem C8_row_around_cut_witness :
    get_row_around_cut row0 2 1
        = .ok ⟨sliceInterval "ACGT" 2 4, sliceInterval "ACGT" 2 4, true, 0, 0, 0, 10, mkRat 5 2⟩
      ∧ get_row_around_cut row0 9 1 = .error (valueErrMsg 9)
      ∧ get_dataframe_around_cut_rows [row0] 9 1 = .error (valueErrMsg 9) :=
  ⟨C8_row_around_cut.1 row0 2 1 2 (by decide) (by decide) (by decide),
   C8_row_around_cut.2.1 row0 9 1 (by decide),
   C8_row_around_cut.2.2 [row0] row0 9 1 (by decide) (by decide)⟩

/-! ### C10: reverse_complement on its supported alphabet -/

/-- The key set of the `nt_complement` dict. -/
def seqAlphabet : List Char := ['A', 'C', 'G', 'T', 'N', '-', '_']

/-- Proof-side total companion of the `nt_complement` dict on its domain. -/
def ntc (c : Char) : Char :=
  if c = 'A' then 'T'
  else if c = 'C' then 'G'
  else if c = 'G' then 'C'
  else if c = 'T' then 'A'
  else c

theorem ntc_spec (c : Char) (h : c ∈ seqAlphabet) :
    nt_complement c = some (ntc c) ∧ ntc c ∈ seqAlphabet ∧ ntc (ntc c) = c
      ∧ Char.toUpper c = c := by
  simp only [seqAlphabet, List.mem_cons, List.not_mem_nil, or_false] at h
  rcases h with rfl | rfl | rfl | rfl | rfl | rfl | rfl <;>
    exact ⟨rfl, by decide, by decide, by decide⟩

theorem dictMap_eq_map_ntc :
    ∀ (l : List Char), (∀ c ∈ l, c ∈ seqAlphabet) →
      dictMap nt_complement l = some (l.map ntc) := by
  intro l
  induction l with
  | nil => intro _; rfl
  | cons c cs ih =>
    intro h
    unfold dictMap
    rw [(ntc_spec c (h c (List.mem_cons_self c cs))).1,
      ih (fun d hd => h d (List.mem_cons_of_mem c hd))]
    rfl

theorem map_id_of_mem {f : Char → Char} :
    ∀ (l : List Char), (∀ c ∈ l, f c = c) → l.map f = l := by
  intro l
  induction l with
  | nil => intro _; rfl
  | cons c cs ih =>
    intro h
    rw [List.map_cons, h c (List.mem_cons_self c cs),
      ih (fun d hd => h d (List.mem_cons_of_mem c hd))]

/-- C10: on strings over the uppercase alphabet of the `nt_complement` dict
(`A`, `C`, `G`, `T`, `N`, `-`, `_`), `reverse_complement` never hits a
`KeyError` and applying it twice restores the input string. -/
theorem C10_reverse_complement_involution (s : String)
    (h : ∀ c ∈ s.data, c ∈ seqAlphabet) :
    (reverse_complement s).bind reverse_complement = some s := by
  obtain ⟨l⟩ := s
  have hup : l.map Char.toUpper = l :=
    map_id_of_mem l (fun c hc => (ntc_spec c (h c hc)).2.2.2)
  have h1 : dictMap nt_complement l.reverse = some (l.reverse.map ntc) :=
    dictMap_eq_map_ntc l.reverse (fun c hc => h c (List.mem_reverse.mp hc))
  have rc1 : reverse_complement ⟨l⟩ = some ⟨l.reverse.map ntc⟩ := by
    unfold reverse_complement pyUpper
    rw [show (String.mk (l.map Char.toUpper)).data = l.map Char.toUpper from rfl, hup, h1]
    rfl
  have ht : ∀ c ∈ l.reverse.map ntc, c ∈ seqAlphabet := by
    intro c hc
    rcases List.mem_map.mp hc with ⟨d, hd, rfl⟩
    exact (ntc_spec d (h d (List.mem_reverse.mp hd))).2.1
  have hup2 : (l.reverse.map ntc).map Char.toUpper = l.reverse.map ntc :=
    map_id_of_mem _ (fun c hc => (ntc_spec c (ht c hc)).2.2.2)
  have h2 : dictMap nt_complement (l.reverse.map ntc).reverse
      = some ((l.reverse.map ntc).reverse.map ntc) :=
    dictMap_eq_map_ntc _ (fun c hc => ht c (List.mem_reverse.mp hc))
  have key : (l.reverse.map ntc).reverse.map ntc = l := by
    rw [← List.map_reverse, List.reverse_reverse, List.map_map]
    exact map_id_of_mem l (fun c hc => (ntc_spec c (h c hc)).2.2.1)
  have rc2 : reverse_complement ⟨l.reverse.map ntc⟩ = some ⟨l⟩ := by
    unfold reverse_complement pyUpper
    rw [show (String.mk ((l.reverse.map ntc).map Char.toUpper)).data
        = (l.reverse.map ntc).map Char.toUpper from rfl, hup2, h2, key]
    rfl
  rw [rc1]
  exact rc2

theorem C10_reverse_complement_involution_witness :
    (reverse_complement "ACGTN-_").bind reverse_complement = some "ACGTN-_" :=
  C10_reverse_complement_involution "ACGTN-_" (by decide)
